import Mathlib

/-!
Verification of `scripts/similarity/get_similarity_score.py`.

The script is a thin orchestration layer: it loads a YAML configuration,
creates a Cohere client and a Qdrant client, destructively recreates a
fixed-name collection, embeds each resume, upserts the embeddings, embeds
the job description and runs a nearest-neighbour search, mapping each hit
to a `(truncated payload string, score)` pair.

The two collaborators (the Cohere embedding API and the Qdrant vector
store) are external services; they are modelled by an `Env` of oracles:
`embed` is the embedding call (`none` models the call raising an
exception), `upsertOk` / `searchOk` say whether the corresponding Qdrant
API call succeeds, and `score` is the cosine-similarity value the service
computes for a query vector against a stored vector.  The Qdrant service
itself is modelled by an explicit state (the single collection the script
uses) and by the standard semantics of its three operations: recreate
resets the collection to empty, upsert inserts points overwriting equal
ids, and search scores every stored point, sorts descending by score and
returns at most `limit` hits.

Python-level control flow is modelled exactly: exceptions are `Except`
errors, a caught exception turns into a log line and a `none`/unchanged
value exactly where the source has a `try/except`, and an uncaught
exception propagates.  In particular `get_embedding` swallows the
embedding error and returns Python `None`, so its callers fail with a
`TypeError` at the tuple unpacking `vector, size = self.get_embedding(...)`;
and `QdrantSearch.search` has no `try/except` at all, so a failing
`qdrant.search` call propagates.  Floats are modelled as rationals.
-/

/-- A Python exception escaping a call.  `typeError` models `TypeError`
(e.g. unpacking `None` or subscripting `None`); `apiError` models an
exception raised by a collaborator client call; `configError` models the
dedicated "Configuration error" kind that the specification asks for
(the source never raises it — it exists so that the spec's claim can be
stated and compared against what the code actually raises). -/
inductive PyError where
  | typeError (msg : String)
  | apiError (msg : String)
  | configError (msg : String)
deriving Repr, DecidableEq

/-- The `TypeError` message for `vector, size = None`. -/
def unpackErrMsg : String := "cannot unpack non-iterable NoneType object"

/-- The `TypeError` message for `None[...]` (subscripting the `None` returned
by `read_config` in `QdrantSearch.__init__`). -/
def subscriptErrMsg : String := "NoneType object is not subscriptable"

/-- The parsed YAML configuration: `cohere.api_key`, `qdrant.api_key`,
`qdrant.url`. -/
structure Config where
  cohere_api_key : String
  qdrant_api_key : String
  qdrant_url : String
deriving Repr, DecidableEq

/-- The state of the configuration file on disk, as the three cases
`read_config` distinguishes: absent (`FileNotFoundError`), present but
malformed (`yaml.YAMLError`), or valid. -/
inductive ConfigFile where
  | missing
  | malformed
  | valid (c : Config)
deriving Repr, DecidableEq

/-- Models `read_config`: returns the parsed config, or `None` after logging the
error when the file is missing or the YAML is malformed.  The second
component is the log lines it writes. -/
def read_config : ConfigFile → Option Config × List String
  | .missing => (none, ["Configuration file not found"])
  | .malformed => (none, ["Error parsing YAML in configuration file"])
  | .valid c => (some c, [])

/-- A point stored in the Qdrant collection: an integer id, a vector, and
a payload holding the original resume text (the dict `{"text": resume}`,
modelled by its single field). -/
structure QdrantPoint where
  id : Nat
  vector : List ℚ
  payload : String
deriving Repr, DecidableEq

/-- The Qdrant service state for the single collection
`collection_resume_matcher` the script uses: `coll = none` means the
collection does not exist, `some pts` its current points; `vectorSize`
is the configured vector size of the collection. -/
structure QdrantState where
  coll : Option (List QdrantPoint)
  vectorSize : Nat
deriving Repr, DecidableEq

/-- The collaborator oracles for one run.  `embed text = none` models the
Cohere embedding call raising an exception on `text`; `upsertOk` and
`searchOk` model whether the Qdrant upsert / search API calls succeed;
`score q v` is the cosine-similarity score the Qdrant service reports for
stored vector `v` against query vector `q`. -/
structure Env where
  embed : String → Option (List ℚ)
  upsertOk : Bool
  searchOk : Bool
  score : List ℚ → List ℚ → ℚ

/-- The collection name hardcoded in the script. -/
def collection_name : String := "collection_resume_matcher"

/-- The hardcoded `vector_size = 4096` in `QdrantSearch.__init__`. -/
def vector_size : Nat := 4096

/-- An API call issued against the vector store, for stating temporal
properties about the order of operations. -/
inductive QOp where
  | recreate (name : String) (size : Nat)
  | upsert (name : String) (points : List QdrantPoint)
  | search (name : String) (limit : Nat)
deriving Repr, DecidableEq

/-- Models `qdrant.recreate_collection`: drops whatever the collection held and
creates it empty with the given vector size. -/
def recreate_collection (_st : QdrantState) (size : Nat) : QdrantState :=
  { coll := some [], vectorSize := size }

/-- Service semantics of one upsert of `newPts`: points with an id equal
to an incoming id are overwritten, the incoming points are appended. -/
def upsert_points (pts newPts : List QdrantPoint) : List QdrantPoint :=
  pts.filter (fun p => !(newPts.any (fun q => q.id == p.id))) ++ newPts

/-- Models `qdrant.upsert`: fails when the service call fails (`upsertOk =
false`) or the collection does not exist; otherwise returns the updated
state. -/
def qdrant_upsert (env : Env) (st : QdrantState) (newPts : List QdrantPoint) :
    Except String QdrantState :=
  if env.upsertOk then
    match st.coll with
    | some pts => .ok { st with coll := some (upsert_points pts newPts) }
    | none => .error "collection not found"
  else .error "upsert service failure"

/-- A hit returned by `qdrant.search`: the stored payload (its `text`
field) and the similarity score. -/
structure Hit where
  payloadText : String
  score : ℚ
deriving Repr, DecidableEq

/-- Descending-score order on hits: `a` before `b` when `b.score ≤ a.score`. -/
def hitGE (a b : Hit) : Prop := b.score ≤ a.score

instance : DecidableRel hitGE := fun a b =>
  inferInstanceAs (Decidable (b.score ≤ a.score))

instance : IsTotal Hit hitGE := ⟨fun a b => le_total b.score a.score⟩

instance : IsTrans Hit hitGE := ⟨fun _ _ _ hab hbc => le_trans hbc hab⟩

/-- Models `qdrant.search`: fails when the service call fails or the collection
does not exist; otherwise scores every stored point against the query
vector, sorts descending by score and returns at most `limit` hits. -/
def qdrant_service_search (env : Env) (st : QdrantState) (qv : List ℚ)
    (limit : Nat) : Except String (List Hit) :=
  if env.searchOk then
    match st.coll with
    | some pts =>
        .ok (((pts.map (fun p => Hit.mk p.payload (env.score qv p.vector))).insertionSort
          hitGE).take limit)
    | none => .error "collection not found"
  else .error "search service failure"

/-- A single quote character, for rendering Python string literals. -/
def pySq : String := String.mk ['\'']

/-- The Python rendering `str(hit.payload)` of the payload dict
`{'text': <text>}`. -/
def pyStrPayload (text : String) : String :=
  "\x7b" ++ pySq ++ "text" ++ pySq ++ ": " ++ pySq ++ text ++ pySq ++ "\x7d"

/-- One element of the result list of `QdrantSearch.search`: the
30-character truncation of `str(hit.payload)` and the hit's score. -/
structure MatchResult where
  text : String
  score : ℚ
deriving Repr, DecidableEq

/-- The hit-to-result mapping of the loop in `QdrantSearch.search`:
`{"text": str(hit.payload)[:30], "score": hit.score}` for each hit, in
hit order. -/
def mapHits (hits : List Hit) : List MatchResult :=
  hits.map (fun h => ⟨(pyStrPayload h.payloadText).take 30, h.score⟩)

/-- Models `QdrantSearch.get_embedding`: on success returns the vector and its
length; on an embedding-call exception logs the error and returns Python
`None` (modelled `none`).  Second component is the log. -/
def get_embedding (env : Env) (text : String) :
    Option (List ℚ × Nat) × List String :=
  match env.embed text with
  | some v => (some (v, v.length), [])
  | none => (none, ["Error getting embeddings"])

/-- The loop of `update_qdrant`: for each resume (with its `enumerate`
index, starting at `start`), `vector, size = self.get_embedding(resume)`
— a `TypeError` when `get_embedding` returned `None` — accumulating the
vectors and ids.  Returns `(value, log, embed calls made)`. -/
def collect_embeddings (env : Env) (start : Nat) :
    List String → Except PyError (List (List ℚ) × List Nat) × List String × List String
  | [] => (.ok ([], []), [], [])
  | r :: rs =>
    match get_embedding env r with
    | (none, lg) => (.error (.typeError unpackErrMsg), lg, [r])
    | (some (v, _sz), lg) =>
      match collect_embeddings env (start + 1) rs with
      | (.error e, lg2, em2) => (.error e, lg ++ lg2, r :: em2)
      | (.ok (vs, ids), lg2, em2) => (.ok (v :: vs, start :: ids), lg ++ lg2, r :: em2)

/-- Builds the points of `Batch(ids=ids, vectors=vectors, payloads=[...])`. -/
def mk_points : List Nat → List (List ℚ) → List String → List QdrantPoint
  | i :: is, v :: vs, p :: ps => ⟨i, v, p⟩ :: mk_points is vs ps
  | _, _, _ => []

/-- The log line of the `except` branch of `update_qdrant`. -/
def upsertErrLog : String := "Error upserting the vectors to the qdrant collection"

/-- Output of `update_qdrant`: the resulting Qdrant state (or the
propagated exception), the log lines, the store operations issued, and
the texts passed to the embedding collaborator. -/
structure UpdateOut where
  res : Except PyError QdrantState
  log : List String
  trace : List QOp
  embedCalls : List String
deriving Repr

/-- Models `QdrantSearch.update_qdrant`: embeds every resume (an embedding
failure escapes as a `TypeError` at the unpacking, before any upsert),
then upserts the batch; an upsert failure is caught and logged and the
method returns normally. -/
def update_qdrant (env : Env) (st : QdrantState) (resumes : List String) :
    UpdateOut :=
  match collect_embeddings env 0 resumes with
  | (.error e, lg, em) => ⟨.error e, lg, [], em⟩
  | (.ok (vectors, ids), lg, em) =>
    let pts := mk_points ids vectors resumes
    match qdrant_upsert env st pts with
    | .ok st2 => ⟨.ok st2, lg, [QOp.upsert collection_name pts], em⟩
    | .error _msg => ⟨.ok st, lg ++ [upsertErrLog], [QOp.upsert collection_name pts], em⟩

/-- Output of `QdrantSearch.search`, same components as `UpdateOut`. -/
structure SearchOut where
  res : Except PyError (List MatchResult)
  log : List String
  trace : List QOp
  embedCalls : List String
deriving Repr

/-- Models `QdrantSearch.search`: embeds the job description (a failure escapes
as a `TypeError` at `vector, _ = self.get_embedding(self.jd)`), issues
the search with `limit=30` — with no `try/except`, so a search-call
failure propagates — and maps each hit to a `MatchResult`. -/
def search (env : Env) (st : QdrantState) (jd : String) : SearchOut :=
  match get_embedding env jd with
  | (none, lg) => ⟨.error (.typeError unpackErrMsg), lg, [], [jd]⟩
  | (some (v, _sz), lg) =>
    match qdrant_service_search env st v 30 with
    | .error msg => ⟨.error (.apiError msg), lg, [QOp.search collection_name 30], [jd]⟩
    | .ok hits => ⟨.ok (mapHits hits), lg, [QOp.search collection_name 30], [jd]⟩

/-- Output of `QdrantSearch.__init__`. -/
structure InitOut where
  res : Except PyError QdrantState
  log : List String
  trace : List QOp
deriving Repr

/-- Models `QdrantSearch.__init__`: reads the config — when `read_config`
returned `None`, the subscript `config["cohere"]` raises a `TypeError`
that propagates to the caller — then recreates the collection with the
hardcoded `vector_size`. -/
def qdrantSearch_init (cfg : ConfigFile) (st0 : QdrantState) : InitOut :=
  match read_config cfg with
  | (none, lg) => ⟨.error (.typeError subscriptErrMsg), lg, []⟩
  | (some _c, lg) =>
    ⟨.ok (recreate_collection st0 vector_size), lg,
      [QOp.recreate collection_name vector_size]⟩

/-- Output of a whole run. -/
structure RunOut where
  result : Except PyError (List MatchResult)
  log : List String
  trace : List QOp
  embedCalls : List String
deriving Repr

/-- The `QdrantSearch(resumes, jd)` / `update_qdrant()` / `search()`
sequence, starting from whatever state `st0` the vector store holds. -/
def qdrantSearch_run (env : Env) (cfg : ConfigFile) (st0 : QdrantState)
    (resumes : List String) (jd : String) : RunOut :=
  let i := qdrantSearch_init cfg st0
  match i.res with
  | .error e => ⟨.error e, i.log, i.trace, []⟩
  | .ok st1 =>
    let u := update_qdrant env st1 resumes
    match u.res with
    | .error e => ⟨.error e, i.log ++ u.log, i.trace ++ u.trace, u.embedCalls⟩
    | .ok st2 =>
      let s := search env st2 jd
      ⟨s.res, i.log ++ u.log ++ s.log, i.trace ++ u.trace ++ s.trace,
        u.embedCalls ++ s.embedCalls⟩

/-- Models `get_similarity_score(resume_string, job_description_string)`: wraps
the single resume in a one-element list, runs the pipeline, and logs the
start line always and the finish line only when no exception escapes. -/
def get_similarity_score (env : Env) (cfg : ConfigFile) (st0 : QdrantState)
    (resume_string job_description_string : String) : RunOut :=
  let r := qdrantSearch_run env cfg st0 [resume_string] job_description_string
  { result := r.result
    log := "Started getting similarity score" :: r.log ++
      (match r.result with
       | .ok _ => ["Finished getting similarity score"]
       | .error _ => [])
    trace := r.trace
    embedCalls := r.embedCalls }

/-! ### Concrete collaborator instances used to exercise the theorems -/

/-- All collaborator calls succeed; every embedding is the vector `[1]`;
every reported score is `0`. -/
def envGood : Env := ⟨fun _ => some [1], true, true, fun _ _ => 0⟩

/-- The embedding call raises on every input. -/
def envEmbedFail : Env := ⟨fun _ => none, true, true, fun _ _ => 0⟩

/-- The upsert call raises; everything else succeeds. -/
def envUpsertFail : Env := ⟨fun _ => some [1], false, true, fun _ _ => 0⟩

/-- The search call raises; everything else succeeds. -/
def envSearchFail : Env := ⟨fun _ => some [1], true, false, fun _ _ => 0⟩

/-- A valid configuration file. -/
def cfgGood : ConfigFile := .valid ⟨"ck", "qk", "qu"⟩

/-- A vector-store state in which the collection does not exist yet. -/
def st0c : QdrantState := ⟨none, 0⟩

/-- A one-point store state used to exercise the search theorems. -/
def stOne : QdrantState := ⟨some [⟨0, [1], "r"⟩], 4096⟩

/-- The payload batches of the upsert operations in a trace, in order. -/
def upsertOps (tr : List QOp) : List (List QdrantPoint) :=
  tr.filterMap fun op => match op with
    | .upsert _ pts => some pts
    | _ => none

/-! ### Helper lemmas -/

theorem get_embedding_some (env : Env) (t : String) (v : List ℚ)
    (hv : env.embed t = some v) :
    get_embedding env t = (some (v, v.length), []) := by
  unfold get_embedding; rw [hv]

theorem get_embedding_none (env : Env) (t : String)
    (hv : env.embed t = none) :
    get_embedding env t = (none, ["Error getting embeddings"]) := by
  unfold get_embedding; rw [hv]

theorem search_ok_shape (env : Env) (st : QdrantState) (jd : String)
    (res : List MatchResult) (h : (search env st jd).res = .ok res) :
    ∃ v hits, env.embed jd = some v ∧
      qdrant_service_search env st v 30 = .ok hits ∧ res = mapHits hits := by
  cases hj : env.embed jd with
  | none =>
    simp only [search, get_embedding_none env jd hj] at h
    exact Except.noConfusion h
  | some v =>
    simp only [search, get_embedding_some env jd v hj] at h
    cases hq : qdrant_service_search env st v 30 with
    | error m => rw [hq] at h; simp at h
    | ok hits =>
      rw [hq] at h
      simp only [Except.ok.injEq] at h
      exact ⟨v, hits, rfl, hq, h.symm⟩

theorem service_search_length (env : Env) (st : QdrantState) (qv : List ℚ)
    (limit : Nat) (hits : List Hit)
    (h : qdrant_service_search env st qv limit = .ok hits) :
    hits.length ≤ limit := by
  unfold qdrant_service_search at h
  split at h
  · cases hc : st.coll with
    | none => rw [hc] at h; cases h
    | some pts =>
      rw [hc] at h
      injection h with h
      rw [← h]
      exact List.length_take_le limit _
  · cases h

theorem service_search_sorted (env : Env) (st : QdrantState) (qv : List ℚ)
    (limit : Nat) (hits : List Hit)
    (h : qdrant_service_search env st qv limit = .ok hits) :
    List.Pairwise hitGE hits := by
  unfold qdrant_service_search at h
  split at h
  · cases hc : st.coll with
    | none => rw [hc] at h; cases h
    | some pts =>
      rw [hc] at h
      injection h with h
      rw [← h]
      exact (List.sorted_insertionSort hitGE _).sublist (List.take_sublist _ _)
  · cases h

theorem run_ok_shape (env : Env) (cfg : ConfigFile) (st0 : QdrantState)
    (resumes : List String) (jd : String) (res : List MatchResult)
    (h : (qdrantSearch_run env cfg st0 resumes jd).result = .ok res) :
    ∃ st v hits, env.embed jd = some v ∧
      qdrant_service_search env st v 30 = .ok hits ∧ res = mapHits hits := by
  simp only [qdrantSearch_run] at h
  cases hi : (qdrantSearch_init cfg st0).res with
  | error e => rw [hi] at h; simp at h
  | ok st1 =>
    rw [hi] at h
    dsimp only at h
    cases hu : (update_qdrant env st1 resumes).res with
    | error e => rw [hu] at h; simp at h
    | ok st2 =>
      rw [hu] at h
      exact ⟨st2, search_ok_shape env st2 jd res h⟩

theorem init_trace_cases (cfg : ConfigFile) (st0 : QdrantState) :
    (qdrantSearch_init cfg st0).trace = [] ∨
    (qdrantSearch_init cfg st0).trace = [QOp.recreate collection_name vector_size] := by
  cases cfg <;> simp [qdrantSearch_init, read_config]

theorem update_trace_cases (env : Env) (st : QdrantState) (resumes : List String) :
    (update_qdrant env st resumes).trace = [] ∨
    ∃ pts, (update_qdrant env st resumes).trace = [QOp.upsert collection_name pts] := by
  unfold update_qdrant
  split
  · exact Or.inl rfl
  · dsimp only
    split
    · exact Or.inr ⟨_, rfl⟩
    · exact Or.inr ⟨_, rfl⟩

theorem search_trace_cases (env : Env) (st : QdrantState) (jd : String) :
    (search env st jd).trace = [] ∨
    (search env st jd).trace = [QOp.search collection_name 30] := by
  unfold search
  split
  · exact Or.inl rfl
  · split
    · exact Or.inr rfl
    · exact Or.inr rfl

theorem run_trace_ops (env : Env) (cfg : ConfigFile) (st0 : QdrantState)
    (resumes : List String) (jd : String) (op : QOp)
    (h : op ∈ (qdrantSearch_run env cfg st0 resumes jd).trace) :
    op = QOp.recreate collection_name vector_size ∨
    (∃ pts, op = QOp.upsert collection_name pts) ∨
    op = QOp.search collection_name 30 := by
  have mem_init : ∀ o : QOp, o ∈ (qdrantSearch_init cfg st0).trace →
      o = QOp.recreate collection_name vector_size := by
    intro o ho
    rcases init_trace_cases cfg st0 with h1 | h1 <;> rw [h1] at ho <;> simp at ho
    exact ho
  have mem_update : ∀ (st1 : QdrantState) (o : QOp),
      o ∈ (update_qdrant env st1 resumes).trace →
      ∃ pts, o = QOp.upsert collection_name pts := by
    intro st1 o ho
    rcases update_trace_cases env st1 resumes with h1 | ⟨pts, h1⟩ <;>
      rw [h1] at ho <;> simp at ho
    exact ⟨pts, ho⟩
  have mem_search : ∀ (st2 : QdrantState) (o : QOp),
      o ∈ (search env st2 jd).trace → o = QOp.search collection_name 30 := by
    intro st2 o ho
    rcases search_trace_cases env st2 jd with h1 | h1 <;> rw [h1] at ho <;> simp at ho
    exact ho
  simp only [qdrantSearch_run] at h
  split at h
  · exact Or.inl (mem_init op h)
  · split at h
    · dsimp only at h
      rcases List.mem_append.mp h with h2 | h2
      · exact Or.inl (mem_init op h2)
      · exact Or.inr (Or.inl (mem_update _ op h2))
    · dsimp only at h
      rcases List.mem_append.mp h with h2 | h2
      · rcases List.mem_append.mp h2 with h3 | h3
        · exact Or.inl (mem_init op h3)
        · exact Or.inr (Or.inl (mem_update _ op h3))
      · exact Or.inr (Or.inr (mem_search _ op h2))

theorem gss_trace (env : Env) (cfg : ConfigFile) (st0 : QdrantState)
    (r jd : String) :
    (get_similarity_score env cfg st0 r jd).trace =
      (qdrantSearch_run env cfg st0 [r] jd).trace := rfl

theorem gss_result (env : Env) (cfg : ConfigFile) (st0 : QdrantState)
    (r jd : String) :
    (get_similarity_score env cfg st0 r jd).result =
      (qdrantSearch_run env cfg st0 [r] jd).result := rfl

theorem collect_embeddings_ok (env : Env) (f : String → List ℚ) :
    ∀ (resumes : List String) (start : Nat),
      (∀ r ∈ resumes, env.embed r = some (f r)) →
      collect_embeddings env start resumes =
        (.ok (resumes.map f, List.range' start resumes.length), [], resumes) := by
  intro resumes
  induction resumes with
  | nil => intro start _; rfl
  | cons r rs ih =>
    intro start h
    have hr : env.embed r = some (f r) := h r (List.mem_cons_self r rs)
    have ihs := ih (start + 1) (fun x hx => h x (List.mem_cons_of_mem r hx))
    simp only [collect_embeddings, get_embedding_some env r (f r) hr, ihs,
      List.map_cons, List.length_cons, List.range'_succ, List.nil_append]

theorem mk_points_maps :
    ∀ (ids : List Nat) (vecs : List (List ℚ)) (ps : List String),
      ids.length = vecs.length → ids.length = ps.length →
      (mk_points ids vecs ps).map QdrantPoint.id = ids ∧
      (mk_points ids vecs ps).map QdrantPoint.vector = vecs ∧
      (mk_points ids vecs ps).map QdrantPoint.payload = ps := by
  intro ids
  induction ids with
  | nil =>
    intro vecs ps hv hp
    cases vecs with
    | cons v vs => simp at hv
    | nil =>
      cases ps with
      | cons p pp => simp at hp
      | nil => exact ⟨rfl, rfl, rfl⟩
  | cons i is ih =>
    intro vecs ps hv hp
    cases vecs with
    | nil => simp at hv
    | cons v vs =>
      cases ps with
      | nil => simp at hp
      | cons p pp =>
        simp only [List.length_cons, Nat.succ.injEq] at hv hp
        obtain ⟨h1, h2, h3⟩ := ih vs pp hv hp
        simp only [mk_points, List.map_cons, h1, h2, h3, and_self]

theorem search_ok_of (env : Env) (st : QdrantState) (jd : String)
    (vj : List ℚ) (hj : env.embed jd = some vj) (hs : env.searchOk = true)
    (pts : List QdrantPoint) (hc : st.coll = some pts) :
    ∃ res, (search env st jd).res = Except.ok res :=
  ⟨mapHits ((List.insertionSort hitGE
      (pts.map (fun p => Hit.mk p.payload (env.score vj p.vector)))).take 30),
    by simp only [search, get_embedding_some env jd vj hj,
      qdrant_service_search, hs, if_true, hc]⟩

/-! ### Claims -/

/-- Claim C1, counterexample.  The claim says that for every invocation of
`get_similarity_score`, a failure of an embedding, upsert or search call
is swallowed and the caller never receives an exception.  This is false:
when the embedding call fails, `get_embedding` logs and returns `None`,
and the unpacking `vector, size = self.get_embedding(resume)` in
`update_qdrant` raises an uncaught `TypeError` that propagates to the
caller.  Concretely, with collaborators that fail every embedding call,
the run ends in an exception, not a degraded return value. -/
theorem c1_counterexample :
    ¬ (∀ (env : Env) (c : Config) (st0 : QdrantState) (r jd : String),
        ∃ res, (get_similarity_score env (ConfigFile.valid c) st0 r jd).result =
          Except.ok res) := by
  intro hall
  obtain ⟨res, hres⟩ := hall envEmbedFail ⟨"ck", "qk", "qu"⟩ st0c "r" "j"
  rw [show (get_similarity_score envEmbedFail
        (ConfigFile.valid ⟨"ck", "qk", "qu"⟩) st0c "r" "j").result =
      Except.error (PyError.typeError unpackErrMsg) from rfl] at hres
  exact Except.noConfusion hres

/-- Claim C1, amended: only an upsert-call failure is swallowed at the
collaborator-call boundary.  If both embedding calls succeed and the
search call succeeds, the caller receives a normal (possibly degraded)
return value even when the upsert call fails, and a failing upsert is
surfaced via the log; an embedding-call failure, by contrast, escapes as
a `TypeError` at the `vector, size = ...` unpacking, and a search-call
failure propagates because `QdrantSearch.search` has no `try/except`. -/
theorem c1_amended_only_upsert_swallowed (env : Env) (c : Config)
    (st0 : QdrantState) (r jd : String) (vr vj : List ℚ)
    (hr : env.embed r = some vr) (hj : env.embed jd = some vj)
    (hs : env.searchOk = true) :
    (∃ res, (get_similarity_score env (ConfigFile.valid c) st0 r jd).result =
      Except.ok res) ∧
    (env.upsertOk = false →
      upsertErrLog ∈ (get_similarity_score env (ConfigFile.valid c) st0 r jd).log) := by
  have hcol : collect_embeddings env 0 [r] = (.ok ([vr], [0]), [], [r]) := by
    have h := collect_embeddings_ok env (fun _ => vr) [r] 0
      (by intro x hx
          rw [List.mem_singleton] at hx
          subst hx
          exact hr)
    simpa using h
  have hinit : qdrantSearch_init (ConfigFile.valid c) st0 =
      ⟨.ok ⟨some [], vector_size⟩, [], [QOp.recreate collection_name vector_size]⟩ :=
    rfl
  cases hu : env.upsertOk with
  | true =>
    constructor
    · obtain ⟨res, hsr⟩ :=
        search_ok_of env ⟨some [(⟨0, vr, r⟩ : QdrantPoint)], vector_size⟩ jd vj hj hs _ rfl
      refine ⟨res, ?_⟩
      rw [gss_result]
      simp only [qdrantSearch_run, hinit, update_qdrant, hcol, mk_points,
        qdrant_upsert, hu, if_true, upsert_points, List.filter_nil,
        List.nil_append]
      exact hsr
    · intro hfalse
      exact Bool.noConfusion hfalse
  | false =>
    constructor
    · obtain ⟨res, hsr⟩ :=
        search_ok_of env ⟨some [], vector_size⟩ jd vj hj hs _ rfl
      refine ⟨res, ?_⟩
      rw [gss_result]
      simp only [qdrantSearch_run, hinit, update_qdrant, hcol, mk_points,
        qdrant_upsert, hu, Bool.false_eq_true, if_false]
      exact hsr
    · intro _
      simp only [get_similarity_score, qdrantSearch_run, hinit, update_qdrant,
        hcol, mk_points, qdrant_upsert, hu, Bool.false_eq_true, if_false]
      simp

/-- Claim C1, witness for the amended theorem: with an environment whose
upsert call fails but whose embedding and search calls succeed, the run
returns normally and the upsert error is in the log. -/
theorem c1_amended_witness :
    (∃ res, (get_similarity_score envUpsertFail cfgGood st0c "r" "j").result =
      Except.ok res) ∧
    (envUpsertFail.upsertOk = false →
      upsertErrLog ∈ (get_similarity_score envUpsertFail cfgGood st0c "r" "j").log) :=
  c1_amended_only_upsert_swallowed envUpsertFail ⟨"ck", "qk", "qu"⟩ st0c "r" "j"
    [1] [1] rfl rfl rfl

/-- Claim C2, counterexample.  The claim says that with an unresolvable
configuration (missing file or malformed YAML) `get_similarity_score`
fails with a Configuration error.  The code has no such error kind:
`read_config` logs and returns `None`, and `QdrantSearch.__init__` then
raises a plain `TypeError` at `config["cohere"]` — so the failure is an
uncaught `TypeError`, not a Configuration error. -/
theorem c2_counterexample :
    ¬ (∀ (env : Env) (st0 : QdrantState) (r jd : String),
        ∃ m, (get_similarity_score env ConfigFile.malformed st0 r jd).result =
          Except.error (PyError.configError m)) := by
  intro hall
  obtain ⟨m, hm⟩ := hall envGood st0c "r" "j"
  rw [show (get_similarity_score envGood ConfigFile.malformed st0c "r" "j").result =
      Except.error (PyError.typeError subscriptErrMsg) from rfl] at hm
  simp at hm

/-- Claim C2, amended: if the configuration is not resolvable (config
file missing or malformed YAML), `get_similarity_score` does fail rather
than silently returning an empty result — but the failure is an uncaught
`TypeError` from subscripting the `None` returned by `read_config`, not
a dedicated Configuration error. -/
theorem c2_amended_config_failure_is_type_error (env : Env)
    (st0 : QdrantState) (r jd : String) :
    (get_similarity_score env ConfigFile.missing st0 r jd).result =
      Except.error (PyError.typeError subscriptErrMsg) ∧
    (get_similarity_score env ConfigFile.malformed st0 r jd).result =
      Except.error (PyError.typeError subscriptErrMsg) :=
  ⟨rfl, rfl⟩

/-- Claim C3: the list returned by `get_similarity_score` always has
length at most 30 — the nearest-neighbour query is issued with
`limit=30` (every search operation in the trace carries limit 30) and
the result mapping produces one `MatchResult` per hit. -/
theorem c3_result_length_le_30 (env : Env) (cfg : ConfigFile)
    (st0 : QdrantState) (r jd : String) (res : List MatchResult)
    (h : (get_similarity_score env cfg st0 r jd).result = Except.ok res) :
    res.length ≤ 30 ∧
    ∀ n l, QOp.search n l ∈ (get_similarity_score env cfg st0 r jd).trace →
      l = 30 := by
  constructor
  · rw [gss_result] at h
    obtain ⟨st, v, hits, _, hq, hres⟩ := run_ok_shape env cfg st0 [r] jd res h
    have hlen := service_search_length env st v 30 hits hq
    rw [hres]
    simpa [mapHits] using hlen
  · intro n l hl
    rw [gss_trace] at hl
    rcases run_trace_ops env cfg st0 [r] jd _ hl with h1 | ⟨pts, h1⟩ | h1
    · simp at h1
    · simp at h1
    · injection h1 with h1a h1b

/-- Claim C3, witness: a concrete successful run returning one result,
whose length is at most 30 and whose only search operation has limit 30. -/
theorem c3_witness :
    (get_similarity_score envGood cfgGood st0c "r" "j").result =
      Except.ok [⟨(pyStrPayload "r").take 30, 0⟩] ∧
    (([⟨(pyStrPayload "r").take 30, 0⟩] : List MatchResult).length ≤ 30 ∧
      ∀ n l, QOp.search n l ∈
        (get_similarity_score envGood cfgGood st0c "r" "j").trace → l = 30) :=
  ⟨rfl, c3_result_length_le_30 envGood cfgGood st0c "r" "j" _ rfl⟩

/-- Claim C4, counterexample.  The claim says the dimension used in
`recreate_collection` equals the length of the vectors the embedding
collaborator produces.  The code hardcodes `vector_size = 4096` with no
connection to the embedding output: with a collaborator producing
1-dimensional vectors, the collection is still recreated with size 4096. -/
theorem c4_counterexample :
    ¬ (∀ (env : Env) (cfg : ConfigFile) (st0 : QdrantState) (r jd : String)
        (v : List ℚ) (s : Nat), env.embed r = some v →
        QOp.recreate collection_name s ∈
          (get_similarity_score env cfg st0 r jd).trace →
        s = v.length) := by
  intro hall
  have hmem : QOp.recreate collection_name 4096 ∈
      (get_similarity_score envGood cfgGood st0c "r" "j").trace := by
    rw [show (get_similarity_score envGood cfgGood st0c "r" "j").trace =
        [QOp.recreate collection_name 4096,
         QOp.upsert collection_name [⟨0, [1], "r"⟩],
         QOp.search collection_name 30] from rfl]
    exact List.mem_cons_self _ _
  have h := hall envGood cfgGood st0c "r" "j" [1] 4096 rfl hmem
  simp at h

/-- Claim C4, amended: every `recreate_collection` call issued by a run
uses the hardcoded size `vector_size = 4096`, independent of the
embedding collaborator's output dimensionality; the two agree only when
the model happens to produce 4096-dimensional vectors. -/
theorem c4_amended_recreate_size_hardcoded (env : Env) (cfg : ConfigFile)
    (st0 : QdrantState) (r jd : String) (s : Nat)
    (h : QOp.recreate collection_name s ∈
      (get_similarity_score env cfg st0 r jd).trace) :
    s = vector_size := by
  rw [gss_trace] at h
  rcases run_trace_ops env cfg st0 [r] jd _ h with h1 | ⟨pts, h1⟩ | h1
  · injection h1 with h1a h1b
  · simp at h1
  · simp at h1

/-- Claim C4, witness for the amended theorem: the concrete run's
recreate operation carries size 4096. -/
theorem c4_witness :
    QOp.recreate collection_name 4096 ∈
      (get_similarity_score envGood cfgGood st0c "r" "j").trace ∧
    (4096 : Nat) = vector_size := by
  have hmem : QOp.recreate collection_name 4096 ∈
      (get_similarity_score envGood cfgGood st0c "r" "j").trace := by
    rw [show (get_similarity_score envGood cfgGood st0c "r" "j").trace =
        [QOp.recreate collection_name 4096,
         QOp.upsert collection_name [⟨0, [1], "r"⟩],
         QOp.search collection_name 30] from rfl]
    exact List.mem_cons_self _ _
  exact ⟨hmem, c4_amended_recreate_size_hardcoded envGood cfgGood st0c "r" "j" 4096 hmem⟩

/-- Claim C5: whenever `QdrantSearch.search` returns normally, its result
list pairs, position by position, the first 30 characters of the string
rendering of the corresponding hit's payload with that hit's score, in
the same order as the hits returned by the vector-store search. -/
theorem c5_hit_to_matchresult (env : Env) (st : QdrantState) (jd : String)
    (res : List MatchResult) (h : (search env st jd).res = Except.ok res) :
    ∃ v hits, env.embed jd = some v ∧
      qdrant_service_search env st v 30 = Except.ok hits ∧
      res.length = hits.length ∧
      ∀ (i : Nat) (hi : i < res.length) (hh : i < hits.length),
        res[i] = ⟨(pyStrPayload hits[i].payloadText).take 30, hits[i].score⟩ := by
  obtain ⟨v, hits, hj, hq, hres⟩ := search_ok_shape env st jd res h
  subst hres
  refine ⟨v, hits, hj, hq, ?_, ?_⟩
  · simp [mapHits]
  · intro i hi hh
    simp [mapHits]

/-- Claim C5, witness: a concrete search over a one-point collection,
whose single result is the truncated payload rendering with the hit's
score. -/
theorem c5_witness :
    (search envGood stOne "j").res =
      Except.ok [⟨(pyStrPayload "r").take 30, 0⟩] ∧
    (∃ v hits, envGood.embed "j" = some v ∧
      qdrant_service_search envGood stOne v 30 = Except.ok hits ∧
      ([⟨(pyStrPayload "r").take 30, (0 : ℚ)⟩] : List MatchResult).length =
        hits.length ∧
      ∀ (i : Nat)
        (hi : i < ([⟨(pyStrPayload "r").take 30, (0 : ℚ)⟩] : List MatchResult).length)
        (hh : i < hits.length),
        ([⟨(pyStrPayload "r").take 30, (0 : ℚ)⟩] : List MatchResult)[i] =
          ⟨(pyStrPayload hits[i].payloadText).take 30, hits[i].score⟩) :=
  ⟨rfl, c5_hit_to_matchresult envGood stOne "j" _ rfl⟩

/-- Claim C6: when every embedding call succeeds, `update_qdrant` issues
exactly one upsert whose points carry the sequential identifiers
`0 .. n-1` in insertion order, the embedding vectors in resume order, and
payloads holding the original resume texts. -/
theorem c6_upsert_sequential_ids (env : Env) (st : QdrantState)
    (resumes : List String) (f : String → List ℚ)
    (hf : ∀ r ∈ resumes, env.embed r = some (f r)) :
    ∃ pts, (update_qdrant env st resumes).trace =
        [QOp.upsert collection_name pts] ∧
      pts.map QdrantPoint.id = List.range resumes.length ∧
      pts.map QdrantPoint.vector = resumes.map f ∧
      pts.map QdrantPoint.payload = resumes := by
  have hcol := collect_embeddings_ok env f resumes 0 hf
  have hlen1 : (List.range' 0 resumes.length).length = (resumes.map f).length := by
    simp
  have hlen2 : (List.range' 0 resumes.length).length = resumes.length := by
    simp
  obtain ⟨h1, h2, h3⟩ :=
    mk_points_maps (List.range' 0 resumes.length) (resumes.map f) resumes hlen1 hlen2
  refine ⟨mk_points (List.range' 0 resumes.length) (resumes.map f) resumes,
    ?_, ?_, ?_, ?_⟩
  · unfold update_qdrant
    rw [hcol]
    dsimp only
    split <;> rfl
  · rw [h1]
    exact (List.range_eq_range' _).symm
  · exact h2
  · exact h3

/-- Claim C6, witness: two resumes are upserted with ids `[0, 1]`, their
embedding vectors, and the original texts as payloads. -/
theorem c6_witness :
    ∃ pts, (update_qdrant envGood st0c ["a", "b"]).trace =
        [QOp.upsert collection_name pts] ∧
      pts.map QdrantPoint.id = List.range (["a", "b"] : List String).length ∧
      pts.map QdrantPoint.vector =
        (["a", "b"] : List String).map (fun _ => [(1 : ℚ)]) ∧
      pts.map QdrantPoint.payload = ["a", "b"] :=
  c6_upsert_sequential_ids envGood st0c ["a", "b"] (fun _ => [1])
    (fun _ _ => rfl)

/-- Claim C7: the hit-to-`MatchResult` mapping preserves the
collaborator's descending score ordering — every successfully returned
result list is pairwise descending in score, and in particular its first
element's score is greater than or equal to every element's score. -/
theorem c7_scores_descending (env : Env) (cfg : ConfigFile)
    (st0 : QdrantState) (r jd : String) (res : List MatchResult)
    (h : (get_similarity_score env cfg st0 r jd).result = Except.ok res) :
    List.Pairwise (fun a b : MatchResult => b.score ≤ a.score) res ∧
    ∀ mr0 mr, res.head? = some mr0 → mr ∈ res → mr.score ≤ mr0.score := by
  rw [gss_result] at h
  obtain ⟨st, v, hits, _, hq, hres⟩ := run_ok_shape env cfg st0 [r] jd res h
  have hsorted := service_search_sorted env st v 30 hits hq
  have hp : List.Pairwise (fun a b : MatchResult => b.score ≤ a.score) res := by
    rw [hres]
    unfold mapHits
    exact List.Pairwise.map _ (fun a b hab => hab) hsorted
  refine ⟨hp, ?_⟩
  intro mr0 mr h0 hmem
  cases res with
  | nil => cases h0
  | cons x xs =>
    simp only [List.head?_cons, Option.some.injEq] at h0
    subst h0
    rcases List.mem_cons.mp hmem with rfl | hmem2
    · exact le_refl _
    · exact List.rel_of_pairwise_cons hp hmem2

/-- Claim C7, witness: a concrete successful run whose result list is
pairwise descending and head-dominant. -/
theorem c7_witness :
    (get_similarity_score envGood cfgGood st0c "r" "j").result =
      Except.ok [⟨(pyStrPayload "r").take 30, 0⟩] ∧
    (List.Pairwise (fun a b : MatchResult => b.score ≤ a.score)
        ([⟨(pyStrPayload "r").take 30, (0 : ℚ)⟩] : List MatchResult) ∧
      ∀ mr0 mr,
        ([⟨(pyStrPayload "r").take 30, (0 : ℚ)⟩] : List MatchResult).head? =
          some mr0 →
        mr ∈ ([⟨(pyStrPayload "r").take 30, (0 : ℚ)⟩] : List MatchResult) →
        mr.score ≤ mr0.score) :=
  ⟨rfl, c7_scores_descending envGood cfgGood st0c "r" "j" _ rfl⟩

theorem run_trace_shape (env : Env) (c : Config) (st0 : QdrantState)
    (resumes : List String) (jd : String) :
    ∃ rest, (qdrantSearch_run env (ConfigFile.valid c) st0 resumes jd).trace =
      QOp.recreate collection_name vector_size :: rest := by
  unfold qdrantSearch_run
  rw [show qdrantSearch_init (ConfigFile.valid c) st0 =
      ⟨.ok ⟨some [], vector_size⟩, [], [QOp.recreate collection_name vector_size]⟩
    from rfl]
  dsimp only
  split
  · exact ⟨(update_qdrant env ⟨some [], vector_size⟩ resumes).trace, by simp⟩
  · next st2 heq =>
      exact ⟨(update_qdrant env ⟨some [], vector_size⟩ resumes).trace ++
        (search env st2 jd).trace, by simp⟩

/-- Claim C8: every invocation destructively recreates the named
collection before any upsert or search is issued — the trace, when at
all nonempty, begins with the recreate operation — and no vector-store
state from a prior invocation is visible: the whole run output is
independent of the store state the invocation starts from. -/
theorem c8_recreate_before_use (env : Env) (cfg : ConfigFile)
    (st0 st0' : QdrantState) (r jd : String) :
    get_similarity_score env cfg st0 r jd =
      get_similarity_score env cfg st0' r jd ∧
    ((get_similarity_score env cfg st0 r jd).trace = [] ∨
      ∃ rest, (get_similarity_score env cfg st0 r jd).trace =
        QOp.recreate collection_name vector_size :: rest) := by
  constructor
  · have hinit : qdrantSearch_init cfg st0 = qdrantSearch_init cfg st0' := by
      cases cfg <;> rfl
    unfold get_similarity_score qdrantSearch_run
    rw [hinit]
  · cases cfg with
    | missing => exact Or.inl rfl
    | malformed => exact Or.inl rfl
    | valid c =>
      refine Or.inr ?_
      rw [gss_trace]
      exact run_trace_shape env c st0 [r] jd

/-- Claim C9: with an empty resume list, `update_qdrant` makes no
embedding calls and issues the upsert with an empty batch, and the whole
constructor/update/search sequence returns the empty result list without
raising, provided the job-description embedding and the service calls
succeed. -/
theorem c9_empty_resume_list (env : Env) (c : Config) (st0 st : QdrantState)
    (jd : String) (vj : List ℚ) (hj : env.embed jd = some vj)
    (hu : env.upsertOk = true) (hs : env.searchOk = true) :
    (update_qdrant env st []).embedCalls = [] ∧
    (update_qdrant env st []).trace = [QOp.upsert collection_name []] ∧
    (qdrantSearch_run env (ConfigFile.valid c) st0 [] jd).result =
      Except.ok [] := by
  refine ⟨?_, ?_, ?_⟩
  · unfold update_qdrant
    dsimp only [collect_embeddings]
    split <;> rfl
  · unfold update_qdrant
    dsimp only [collect_embeddings]
    split <;> rfl
  · simp only [qdrantSearch_run,
      show qdrantSearch_init (ConfigFile.valid c) st0 =
        ⟨.ok ⟨some [], vector_size⟩, [],
          [QOp.recreate collection_name vector_size]⟩ from rfl,
      update_qdrant, collect_embeddings, mk_points, qdrant_upsert, hu, if_true,
      upsert_points, List.filter_nil, List.nil_append, search,
      get_embedding_some env jd vj hj, qdrant_service_search, hs,
      List.map_nil, List.insertionSort, List.take_nil, mapHits]

/-- Claim C9, witness: the empty-resume scenario run concretely. -/
theorem c9_witness :
    (update_qdrant envGood st0c []).embedCalls = [] ∧
    (update_qdrant envGood st0c []).trace = [QOp.upsert collection_name []] ∧
    (qdrantSearch_run envGood cfgGood st0c [] "j").result = Except.ok [] :=
  c9_empty_resume_list envGood ⟨"ck", "qk", "qu"⟩ st0c st0c "j" [1] rfl rfl rfl

/-- Claim C10: `get_similarity_score` wraps the single resume string in a
one-element list, so whenever the resume's embedding call succeeds the
run issues exactly one upsert, whose batch is the single point with
identifier 0, the resume's embedding vector, and a payload carrying the
resume text — regardless of how the rest of the run fares. -/
theorem c10_single_point_id_zero (env : Env) (c : Config)
    (st0 : QdrantState) (r jd : String) (v : List ℚ)
    (hr : env.embed r = some v) :
    upsertOps (get_similarity_score env (ConfigFile.valid c) st0 r jd).trace =
      [[⟨0, v, r⟩]] := by
  have hcol : collect_embeddings env 0 [r] = (.ok ([v], [0]), [], [r]) := by
    have h := collect_embeddings_ok env (fun _ => v) [r] 0
      (by intro x hx
          rw [List.mem_singleton] at hx
          subst hx
          exact hr)
    simpa using h
  have hupdt : (update_qdrant env (⟨some [], vector_size⟩ : QdrantState) [r]).trace =
      [QOp.upsert collection_name [⟨0, v, r⟩]] := by
    unfold update_qdrant
    rw [hcol]
    dsimp only
    split <;> rfl
  have hupdr : ∃ st2,
      (update_qdrant env (⟨some [], vector_size⟩ : QdrantState) [r]).res =
        Except.ok st2 := by
    unfold update_qdrant
    rw [hcol]
    dsimp only
    split
    · exact ⟨_, rfl⟩
    · exact ⟨_, rfl⟩
  obtain ⟨st2, hst2⟩ := hupdr
  rw [gss_trace]
  unfold qdrantSearch_run
  rw [show qdrantSearch_init (ConfigFile.valid c) st0 =
      ⟨.ok ⟨some [], vector_size⟩, [],
        [QOp.recreate collection_name vector_size]⟩ from rfl]
  dsimp only
  rw [hst2]
  dsimp only
  rw [hupdt]
  rcases search_trace_cases env st2 jd with hsearch | hsearch <;> rw [hsearch] <;>
    simp [upsertOps]

/-- Claim C10, witness: the concrete good run upserts exactly the single
point with id 0, vector `[1]` and payload `"r"`. -/
theorem c10_witness :
    upsertOps (get_similarity_score envGood cfgGood st0c "r" "j").trace =
      [[⟨0, [1], "r"⟩]] :=
  c10_single_point_id_zero envGood ⟨"ck", "qk", "qu"⟩ st0c "r" "j" [1] rfl
